import Mathlib

/-!
Verification development for the cpp-netlib core: the server side connection
state machine of boost/network/protocol/http/connection.hpp, the incremental
request header tokenizer it drives, and the client side connection manager of
http/src/network/http/v2/client/connection_manager.hpp.

Machine integers are modelled as Nat with explicit reduction modulo 2 ^ 64
where std::size_t arithmetic can wrap. Buffers and strings are lists of Char.
-/

namespace CppNetlib

/-! ## Incremental request header tokenizer -/

/-- Modelled from the spec: the parse modes of the incremental header
tokenizer of request_parser.hpp, which is not under src; only its caller
connection::handle_read_headers is. Following spec section 4.1 the tokenizer
consumes the method, the target, the version, then repeated header name and
value pairs terminated by an empty line, with terminal complete and failed
modes. -/
inductive PMode where
  | method
  | uri
  | version
  | lf1
  | headerStart
  | headerName
  | afterColon
  | headerValue
  | lf2
  | finalLf
  | complete
  | failed
deriving DecidableEq

/-- Modelled from the spec: the tokenizer state is a logical parse position
plus the tokens accumulated so far, never a raw pointer into an old buffer,
so that parsing may resume across independent calls backed by different
buffers. -/
structure PState where
  mode : PMode
  methodAcc : List Char
  uriAcc : List Char
  versionAcc : List Char
  curName : List Char
  curValue : List Char
  headersAcc : List (List Char × List Char)
deriving DecidableEq

/-- Token characters permitted in a method or header name. -/
def isTokenChar (c : Char) : Bool :=
  c.isAlpha || c.isDigit || c = '-' || c = '_'

/-- Modelled from the spec: one character step of the incremental tokenizer.
Malformed tokens such as a non token character in the method or a header
name, a missing version, or a bare line feed move to the failed mode; the
complete and failed modes absorb further input. -/
def consumeChar (p : PState) (c : Char) : PState :=
  match p.mode with
  | PMode.method =>
      if c = ' ' then
        if p.methodAcc.isEmpty then { p with mode := PMode.failed }
        else { p with mode := PMode.uri }
      else if isTokenChar c then { p with methodAcc := p.methodAcc ++ [c] }
      else { p with mode := PMode.failed }
  | PMode.uri =>
      if c = ' ' then
        if p.uriAcc.isEmpty then { p with mode := PMode.failed }
        else { p with mode := PMode.version }
      else if c = '\r' || c = '\n' then { p with mode := PMode.failed }
      else { p with uriAcc := p.uriAcc ++ [c] }
  | PMode.version =>
      if c = '\r' then
        if p.versionAcc.isEmpty then { p with mode := PMode.failed }
        else { p with mode := PMode.lf1 }
      else if c = '\n' then { p with mode := PMode.failed }
      else { p with versionAcc := p.versionAcc ++ [c] }
  | PMode.lf1 =>
      if c = '\n' then { p with mode := PMode.headerStart }
      else { p with mode := PMode.failed }
  | PMode.headerStart =>
      if c = '\r' then { p with mode := PMode.finalLf }
      else if isTokenChar c then
        { p with mode := PMode.headerName, curName := [c], curValue := [] }
      else { p with mode := PMode.failed }
  | PMode.headerName =>
      if c = ':' then { p with mode := PMode.afterColon, curValue := [] }
      else if isTokenChar c then { p with curName := p.curName ++ [c] }
      else { p with mode := PMode.failed }
  | PMode.afterColon =>
      if c = ' ' then { p with mode := PMode.headerValue }
      else if c = '\r' then
        { p with mode := PMode.lf2,
                 headersAcc := p.headersAcc ++ [(p.curName, p.curValue)] }
      else if c = '\n' then { p with mode := PMode.failed }
      else { p with mode := PMode.headerValue, curValue := [c] }
  | PMode.headerValue =>
      if c = '\r' then
        { p with mode := PMode.lf2,
                 headersAcc := p.headersAcc ++ [(p.curName, p.curValue)] }
      else if c = '\n' then { p with mode := PMode.failed }
      else { p with curValue := p.curValue ++ [c] }
  | PMode.lf2 =>
      if c = '\n' then { p with mode := PMode.headerStart }
      else { p with mode := PMode.failed }
  | PMode.finalLf =>
      if c = '\n' then { p with mode := PMode.complete }
      else { p with mode := PMode.failed }
  | PMode.complete => p
  | PMode.failed => p

/-- Feeding one contiguous byte range to the tokenizer, as one call of
parse_headers does with the bytes of a single read. -/
def feedBytes (p : PState) (cs : List Char) : PState :=
  cs.foldl consumeChar p

/-- Feeding a sequence of reads to the tokenizer, one parse_headers call per
read, each call seeing only the bytes of its own read. -/
def feedChunks (p : PState) (chunks : List (List Char)) : PState :=
  chunks.foldl feedBytes p

/-- Fresh tokenizer state, as owned by a newly accepted connection. -/
def initP : PState :=
  ⟨PMode.method, [], [], [], [], [], []⟩

/-- The parsed request visible to the dispatcher: method, target, version and
header pairs. -/
def parsedOf (p : PState) :
    List Char × List Char × List Char × List (List Char × List Char) :=
  (p.methodAcc, p.uriAcc, p.versionAcc, p.headersAcc)

lemma feedBytes_append (p : PState) (a b : List Char) :
    feedBytes p (a ++ b) = feedBytes (feedBytes p a) b := by
  simp [feedBytes, List.foldl_append]

lemma feedChunks_flatten (p : PState) (chunks : List (List Char)) :
    feedChunks p chunks = feedBytes p chunks.flatten := by
  induction chunks generalizing p with
  | nil => rfl
  | cons c cs ih =>
      simp only [feedChunks, List.foldl_cons, List.flatten_cons, feedBytes_append]
      exact ih (feedBytes p c)

/-- Claim C3: splitting a request byte stream at any byte boundaries across
successive reads and feeding the tokenizer each chunk in order yields exactly
the same tokenizer state, hence the same parsed request tuple of method,
target, version and headers, as parsing the whole stream in a single call.
Each call consumes only the bytes of its own chunk, so no previously consumed
byte is ever rescanned. -/
theorem c3_incremental_eq_single_shot (chunks : List (List Char)) :
    feedChunks initP chunks = feedBytes initP chunks.flatten ∧
    parsedOf (feedChunks initP chunks) = parsedOf (feedBytes initP chunks.flatten) := by
  have h := feedChunks_flatten initP chunks
  exact ⟨h, by rw [h]⟩

/-! ## Server connection state machine — boost/network/protocol/http/connection.hpp -/

/-- BOOST_HTTP_SERVER_BUFFER_SIZE, the fixed capacity of the per connection
read buffer. -/
def BUFSZ : Nat := 1024

/-- The basic_request value: method token, target uri, protocol version, the
ordered header pairs and the growable body buffer. -/
structure Request where
  method : List Char
  uri : List Char
  version : List Char
  headers : List (List Char × List Char)
  body : List Char
deriving DecidableEq

/-- The basic_response value; only the status code is observable to the
claims, the wire serialization is opaque here. -/
structure Response where
  status : Nat
deriving DecidableEq

/-- basic_response stock_reply for bad_request. -/
def stockReplyBadRequest : Response := ⟨400⟩

/-- The operation the connection is waiting on. readingHeaders waits for an
async_read_some completion handled by handle_read_headers; readingBody waits
for a body read completion handled by handle_read_body_contents and carries
the bytes_to_read argument bound into that callback; writing waits for the
async_write completion handled by handle_write; closed means no operation is
pending any more, so the connection is destroyed once no external holder
remains. -/
inductive Phase where
  | readingHeaders
  | readingBody (bytesToRead : Nat)
  | writing
  | closed
deriving DecidableEq

/-- The kind of asynchronous operation the connection registers. -/
inductive OpKind where
  | readHeaders
  | readBody
  | writeResp
deriving DecidableEq

/-- One registered asynchronous operation; wrapped records whether the
completion callback was passed through wrapper_.wrap, the per connection
strand. -/
structure AsyncOp where
  kind : OpKind
  wrapped : Bool
deriving DecidableEq

/-- Completion events delivered by the transport to the pending operation:
a successful read carrying the freshly received bytes, a read error, a
successful write, a write error. -/
inductive Ev where
  | readOk (chunk : List Char)
  | readErr
  | writeOk
  | writeErr
deriving DecidableEq

/-- The state owned by one connection object: the pending operation phase,
the request_parser instance, the in progress request and response, the fixed
read buffer, and observation counters for handler invocations, socket
shutdown calls and handler_.log calls, plus the list of every asynchronous
operation registered so far. -/
structure ConnState where
  phase : Phase
  parserSt : PState
  request : Request
  response : Response
  buffer : List Char
  handlerCalls : Nat
  shutdownCalls : Nat
  logCalls : Nat
  issued : List AsyncOp
deriving DecidableEq

/-- A socket read deposits its bytes at the start of the fixed buffer,
leaving the stale tail behind; the buffer keeps its fixed length. -/
def writeBuf (buffer chunk : List Char) : List Char :=
  List.take BUFSZ (chunk ++ buffer.drop chunk.length)

/-- std::size_t subtraction, wrapping modulo 2 ^ 64. -/
def sub64 (a b : Nat) : Nat :=
  (a + 2 ^ 64 - b % 2 ^ 64) % 2 ^ 64

/-- The is_content_length functor of connection.hpp: the header name
lowercased equals content-length. -/
def isContentLength (h : List Char × List Char) : Bool :=
  h.1.map Char.toLower == "content-length".data

/-- Modelled from boost::lexical_cast over std::size_t as used at
connection.hpp line 117: the cast succeeds exactly on plain base ten digit
strings whose value fits in 64 bits and throws otherwise; the throw is the
None result here. -/
def parseSizeT (cs : List Char) : Option Nat :=
  if !cs.isEmpty && cs.all Char.isDigit then
    let n := cs.foldl (fun acc c => 10 * acc + (c.toNat - 48)) 0
    if n < 2 ^ 64 then some n else none
  else none

/-- The resolved Content-Length of a completed header block: the first header
named content-length, if any, run through the size_t cast. None means the
header is absent or its value fails the cast. -/
def clOf (p : PState) : Option Nat :=
  (p.headersAcc.find? isContentLength).bind (fun h => parseSizeT h.2)

/-- The parser writes the tokens it has recognised into the request object it
is handed by reference; the body is untouched. -/
def mergeReq (r : Request) (p : PState) : Request :=
  { r with method := p.methodAcc, uri := p.uriAcc,
           version := p.versionAcc, headers := p.headersAcc }

/-- Reading request_.method[0]; an empty std::string yields the null
character there. -/
def headD (cs : List Char) : Char := cs.headD (Char.ofNat 0)

/-- Translation of the body of connection::handle_read_headers after the
parser consumed the fresh bytes, connection.hpp lines 89 to 203. The tribool
done is true in the complete mode, false in the failed mode and indeterminate
otherwise. Every async operation registered here passes its callback through
wrapper_.wrap. -/
def afterParse (Hf : Request → Response) (s : ConnState) (buf2 : List Char)
    (p2 : PState) : ConnState :=
  let req2 := mergeReq s.request p2
  match p2.mode with
  | PMode.complete =>
      if headD req2.method = 'P' then
        match req2.headers.find? isContentLength with
        | none =>
            { s with buffer := buf2, parserSt := p2, request := req2,
                     response := stockReplyBadRequest, phase := Phase.writing,
                     issued := s.issued ++ [⟨OpKind.writeResp, true⟩] }
        | some h =>
            match parseSizeT h.2 with
            | none =>
                { s with buffer := buf2, parserSt := p2, request := req2,
                         response := stockReplyBadRequest, phase := Phase.writing,
                         issued := s.issued ++ [⟨OpKind.writeResp, true⟩] }
            | some cl =>
                if cl ≠ 0 then
                  { s with buffer := buf2, parserSt := p2, request := req2,
                           phase := Phase.readingBody cl,
                           issued := s.issued ++ [⟨OpKind.readBody, true⟩] }
                else
                  { s with buffer := buf2, parserSt := p2, request := req2,
                           response := Hf req2,
                           handlerCalls := s.handlerCalls + 1,
                           phase := Phase.writing,
                           issued := s.issued ++ [⟨OpKind.writeResp, true⟩] }
      else
        { s with buffer := buf2, parserSt := p2, request := req2,
                 response := Hf req2, handlerCalls := s.handlerCalls + 1,
                 phase := Phase.writing,
                 issued := s.issued ++ [⟨OpKind.writeResp, true⟩] }
  | PMode.failed =>
      { s with buffer := buf2, parserSt := p2, request := req2,
               response := stockReplyBadRequest, phase := Phase.writing,
               issued := s.issued ++ [⟨OpKind.writeResp, true⟩] }
  | _ =>
      { s with buffer := buf2, parserSt := p2, request := req2,
               phase := Phase.readingHeaders,
               issued := s.issued ++ [⟨OpKind.readHeaders, true⟩] }

/-- Translation of connection::handle_read_body_contents, connection.hpp
lines 208 to 241: on a successful read the code computes the size_t
difference bytes_to_read minus bytes_transferred, appends the whole fixed
buffer from begin to end onto the body, dispatches the handler and writes the
response when the difference is exactly zero, and otherwise registers another
wrapped async_read_some with the difference as the new bytes_to_read. -/
def handleReadBody (Hf : Request → Response) (s : ConnState) (r : Nat)
    (chunk : List Char) : ConnState :=
  let buf2 := writeBuf s.buffer chunk
  let diff := sub64 r chunk.length
  let req2 := { s.request with body := s.request.body ++ buf2 }
  if diff = 0 then
    { s with buffer := buf2, request := req2, response := Hf req2,
             handlerCalls := s.handlerCalls + 1, phase := Phase.writing,
             issued := s.issued ++ [⟨OpKind.writeResp, true⟩] }
  else
    { s with buffer := buf2, request := req2,
             phase := Phase.readingBody diff,
             issued := s.issued ++ [⟨OpKind.readBody, true⟩] }

/-- One completion callback of the connection: the event resolves the pending
operation of the current phase. A read error makes both read callbacks do
nothing, leaving no operation pending, which is the closed phase; neither
logs. handle_write, connection.hpp lines 243 to 248, shuts the socket down in
both directions with the shutdown error ignored when the write succeeded and
does nothing on a write error; either way no operation remains pending. -/
def step (Hf : Request → Response) (s : ConnState) (e : Ev) : ConnState :=
  match s.phase, e with
  | Phase.readingHeaders, Ev.readOk chunk =>
      afterParse Hf s (writeBuf s.buffer chunk) (feedBytes s.parserSt chunk)
  | Phase.readingHeaders, Ev.readErr => { s with phase := Phase.closed }
  | Phase.readingBody r, Ev.readOk chunk => handleReadBody Hf s r chunk
  | Phase.readingBody _, Ev.readErr => { s with phase := Phase.closed }
  | Phase.writing, Ev.writeOk =>
      { s with phase := Phase.closed, shutdownCalls := s.shutdownCalls + 1 }
  | Phase.writing, Ev.writeErr => { s with phase := Phase.closed }
  | _, _ => s

/-- Running the connection through a sequence of completion events. -/
def reach (Hf : Request → Response) (s : ConnState) (evs : List Ev) : ConnState :=
  evs.foldl (step Hf) s

/-- The request object default constructed on accept. -/
def emptyRequest : Request := ⟨[], [], [], [], []⟩

/-- Translation of connection::start, connection.hpp lines 54 to 74: set the
no delay socket option, log through the handler when that call fails, then
register the first header read with its callback wrapped by the strand. The
read buffer starts out uninitialised; it is modelled as null bytes, and no
claim depends on its initial content. -/
def connStart (optionError : Bool) : ConnState :=
  { phase := Phase.readingHeaders, parserSt := initP, request := emptyRequest,
    response := ⟨200⟩, buffer := List.replicate BUFSZ (Char.ofNat 0),
    handlerCalls := 0, shutdownCalls := 0,
    logCalls := if optionError then 1 else 0,
    issued := [⟨OpKind.readHeaders, true⟩] }

/-- A fixed handler used by concrete runs: it fills in a 200 response. -/
def Hf0 : Request → Response := fun _ => ⟨200⟩

/-- Concrete POST request header block declaring a five byte body. -/
def post5Req : String := "POST /x HTTP/1.1\r\nContent-Length: 5\r\n\r\n"

/-! ## Basic lemmas on the connection machine -/

lemma step_closed (Hf : Request → Response) (s : ConnState) (e : Ev)
    (h : s.phase = Phase.closed) : step Hf s e = s := by
  unfold step
  rw [h]

lemma reach_closed (Hf : Request → Response) :
    ∀ (evs : List Ev) (s : ConnState), s.phase = Phase.closed →
      reach Hf s evs = s := by
  intro evs
  induction evs with
  | nil => intro s _; rfl
  | cons e es ih =>
      intro s h
      show reach Hf (step Hf s e) es = s
      rw [step_closed Hf s e h]
      exact ih s h

lemma step_writing (Hf : Request → Response) (s : ConnState) (e : Ev)
    (h : s.phase = Phase.writing) :
    (step Hf s e).handlerCalls = s.handlerCalls ∧
    ((step Hf s e).phase = Phase.writing ∨ (step Hf s e).phase = Phase.closed) := by
  unfold step
  rw [h]
  cases e <;> simp [h]

lemma reach_handlerCalls_writing (Hf : Request → Response) :
    ∀ (evs : List Ev) (s : ConnState),
      s.phase = Phase.writing ∨ s.phase = Phase.closed →
      (reach Hf s evs).handlerCalls = s.handlerCalls := by
  intro evs
  induction evs with
  | nil => intro s _; rfl
  | cons e es ih =>
      intro s h
      show (reach Hf (step Hf s e) es).handlerCalls = s.handlerCalls
      rcases h with h | h
      · have h2 := step_writing Hf s e h
        rw [ih (step Hf s e) h2.2, h2.1]
      · rw [step_closed Hf s e h]
        exact ih s (Or.inr h)

/-! ## Branch characterizations of handle_read_headers -/

lemma afterParse_complete_P_findNone (Hf : Request → Response) (s : ConnState)
    (buf2 : List Char) (p2 : PState)
    (hm : p2.mode = PMode.complete) (hP : headD p2.methodAcc = 'P')
    (hf : p2.headersAcc.find? isContentLength = none) :
    afterParse Hf s buf2 p2 =
      { s with buffer := buf2, parserSt := p2,
               request := mergeReq s.request p2,
               response := stockReplyBadRequest, phase := Phase.writing,
               issued := s.issued ++ [⟨OpKind.writeResp, true⟩] } := by
  simp [afterParse, mergeReq, hm, hP, hf]

lemma afterParse_complete_P_castFail (Hf : Request → Response) (s : ConnState)
    (buf2 : List Char) (p2 : PState) (h : List Char × List Char)
    (hm : p2.mode = PMode.complete) (hP : headD p2.methodAcc = 'P')
    (hf : p2.headersAcc.find? isContentLength = some h)
    (hpf : parseSizeT h.2 = none) :
    afterParse Hf s buf2 p2 =
      { s with buffer := buf2, parserSt := p2,
               request := mergeReq s.request p2,
               response := stockReplyBadRequest, phase := Phase.writing,
               issued := s.issued ++ [⟨OpKind.writeResp, true⟩] } := by
  simp [afterParse, mergeReq, hm, hP, hf, hpf]

lemma afterParse_complete_P_pos (Hf : Request → Response) (s : ConnState)
    (buf2 : List Char) (p2 : PState) (h : List Char × List Char) (cl : Nat)
    (hm : p2.mode = PMode.complete) (hP : headD p2.methodAcc = 'P')
    (hf : p2.headersAcc.find? isContentLength = some h)
    (hpf : parseSizeT h.2 = some cl) (hcl : cl ≠ 0) :
    afterParse Hf s buf2 p2 =
      { s with buffer := buf2, parserSt := p2,
               request := mergeReq s.request p2,
               phase := Phase.readingBody cl,
               issued := s.issued ++ [⟨OpKind.readBody, true⟩] } := by
  simp [afterParse, mergeReq, hm, hP, hf, hpf, hcl]

lemma afterParse_complete_P_zero (Hf : Request → Response) (s : ConnState)
    (buf2 : List Char) (p2 : PState) (h : List Char × List Char)
    (hm : p2.mode = PMode.complete) (hP : headD p2.methodAcc = 'P')
    (hf : p2.headersAcc.find? isContentLength = some h)
    (hpf : parseSizeT h.2 = some 0) :
    afterParse Hf s buf2 p2 =
      { s with buffer := buf2, parserSt := p2,
               request := mergeReq s.request p2,
               response := Hf (mergeReq s.request p2),
               handlerCalls := s.handlerCalls + 1, phase := Phase.writing,
               issued := s.issued ++ [⟨OpKind.writeResp, true⟩] } := by
  simp [afterParse, mergeReq, hm, hP, hf, hpf]

lemma afterParse_complete_nonP (Hf : Request → Response) (s : ConnState)
    (buf2 : List Char) (p2 : PState)
    (hm : p2.mode = PMode.complete) (hP : headD p2.methodAcc ≠ 'P') :
    afterParse Hf s buf2 p2 =
      { s with buffer := buf2, parserSt := p2,
               request := mergeReq s.request p2,
               response := Hf (mergeReq s.request p2),
               handlerCalls := s.handlerCalls + 1, phase := Phase.writing,
               issued := s.issued ++ [⟨OpKind.writeResp, true⟩] } := by
  simp [afterParse, mergeReq, hm, hP]

lemma afterParse_failed (Hf : Request → Response) (s : ConnState)
    (buf2 : List Char) (p2 : PState) (hm : p2.mode = PMode.failed) :
    afterParse Hf s buf2 p2 =
      { s with buffer := buf2, parserSt := p2,
               request := mergeReq s.request p2,
               response := stockReplyBadRequest, phase := Phase.writing,
               issued := s.issued ++ [⟨OpKind.writeResp, true⟩] } := by
  simp [afterParse, mergeReq, hm]

lemma step_readingHeaders (Hf : Request → Response) (s : ConnState)
    (chunk : List Char) (hph : s.phase = Phase.readingHeaders) :
    step Hf s (Ev.readOk chunk) =
      afterParse Hf s (writeBuf s.buffer chunk) (feedBytes s.parserSt chunk) := by
  unfold step
  rw [hph]

/-! ## Claim theorems on the body path -/

set_option maxRecDepth 10000

/-- Claim C1, code bug witness run: for the request block with resolved
Content-Length 5 followed by one body read delivering exactly the five bytes
of "hello", the handler is dispatched, but the body buffer at dispatch time
has length 1024, the full fixed read buffer, not the resolved Content-Length
5: handle_read_body_contents appends buffer_.begin() to buffer_.end() rather
than the transferred prefix. -/
theorem c1_body_append_whole_buffer :
    (reach Hf0 (connStart false)
        [Ev.readOk post5Req.data, Ev.readOk "hello".data]).handlerCalls = 1 ∧
    (reach Hf0 (connStart false)
        [Ev.readOk post5Req.data, Ev.readOk "hello".data]).request.body.length = 1024 ∧
    (reach Hf0 (connStart false)
        [Ev.readOk post5Req.data, Ev.readOk "hello".data]).phase = Phase.writing := by
  decide

/-- Claim C2, counterexample: for the request block with resolved
Content-Length 5 whose single body read completes with six bytes, a
completion that transfer_at_least(5) permits, the whole request has been
received yet the handler has been invoked zero times, and the connection is
left waiting for 2 ^ 64 - 1 further body bytes: the size_t difference
bytes_to_read minus bytes_transferred wrapped around instead of dispatching
once at least five bytes had accumulated. -/
theorem c2_counterexample_overread :
    (reach Hf0 (connStart false)
        [Ev.readOk post5Req.data, Ev.readOk "hello!".data]).handlerCalls = 0 ∧
    (reach Hf0 (connStart false)
        [Ev.readOk post5Req.data, Ev.readOk "hello!".data]).phase =
      Phase.readingBody (2 ^ 64 - 1) := by
  decide

/-! ## Claims C7 and C8: write completion and read errors -/

/-- Claim C7: once the response write completes, a successful write shuts the
socket down in both directions, with the shutdown error ignored by the code,
and leaves no operation pending, so the connection is closed; a write error
closes the connection directly with no shutdown attempt; neither path
registers any further operation, so there is no retry. -/
theorem c7_write_completion (Hf : Request → Response) (s : ConnState)
    (h : s.phase = Phase.writing) :
    (step Hf s Ev.writeOk).phase = Phase.closed ∧
    (step Hf s Ev.writeOk).shutdownCalls = s.shutdownCalls + 1 ∧
    (step Hf s Ev.writeOk).issued = s.issued ∧
    (step Hf s Ev.writeErr).phase = Phase.closed ∧
    (step Hf s Ev.writeErr).shutdownCalls = s.shutdownCalls ∧
    (step Hf s Ev.writeErr).issued = s.issued := by
  unfold step
  rw [h]
  simp

/-- Witness for claim C7 at a concrete connection that has just produced the
400 response for a malformed request and is in the writing phase. -/
theorem c7_write_completion_witness :
    (step Hf0 (reach Hf0 (connStart false) [Ev.readOk ['@']]) Ev.writeOk).phase = Phase.closed ∧
    (step Hf0 (reach Hf0 (connStart false) [Ev.readOk ['@']]) Ev.writeOk).shutdownCalls =
      (reach Hf0 (connStart false) [Ev.readOk ['@']]).shutdownCalls + 1 ∧
    (step Hf0 (reach Hf0 (connStart false) [Ev.readOk ['@']]) Ev.writeOk).issued =
      (reach Hf0 (connStart false) [Ev.readOk ['@']]).issued ∧
    (step Hf0 (reach Hf0 (connStart false) [Ev.readOk ['@']]) Ev.writeErr).phase = Phase.closed ∧
    (step Hf0 (reach Hf0 (connStart false) [Ev.readOk ['@']]) Ev.writeErr).shutdownCalls =
      (reach Hf0 (connStart false) [Ev.readOk ['@']]).shutdownCalls ∧
    (step Hf0 (reach Hf0 (connStart false) [Ev.readOk ['@']]) Ev.writeErr).issued =
      (reach Hf0 (connStart false) [Ev.readOk ['@']]).issued :=
  c7_write_completion Hf0 (reach Hf0 (connStart false) [Ev.readOk ['@']]) (by decide)

/-- Claim C4: when the headers of a request whose method carries a body, that
is a method whose first character is the letter P as the code decides it,
parse to completion and the resolved Content-Length is None, because the
header is absent or because its value fails the size_t cast, the connection
builds the stock 400 bad request response, moves to the writing phase, and
the handler is invoked zero times on that connection, both at this step and
across every later completion event. -/
theorem c4_bad_content_length_400 (Hf : Request → Response) (s : ConnState)
    (chunk : List Char) (rest : List Ev)
    (hph : s.phase = Phase.readingHeaders)
    (hmode : (feedBytes s.parserSt chunk).mode = PMode.complete)
    (hP : headD (feedBytes s.parserSt chunk).methodAcc = 'P')
    (hcl : clOf (feedBytes s.parserSt chunk) = none) :
    (step Hf s (Ev.readOk chunk)).response = stockReplyBadRequest ∧
    (step Hf s (Ev.readOk chunk)).phase = Phase.writing ∧
    (step Hf s (Ev.readOk chunk)).handlerCalls = s.handlerCalls ∧
    (reach Hf (step Hf s (Ev.readOk chunk)) rest).handlerCalls = s.handlerCalls := by
  have hres : step Hf s (Ev.readOk chunk) =
      { s with buffer := writeBuf s.buffer chunk,
               parserSt := feedBytes s.parserSt chunk,
               request := mergeReq s.request (feedBytes s.parserSt chunk),
               response := stockReplyBadRequest, phase := Phase.writing,
               issued := s.issued ++ [⟨OpKind.writeResp, true⟩] } := by
    rw [step_readingHeaders Hf s chunk hph]
    rcases hfind : (feedBytes s.parserSt chunk).headersAcc.find? isContentLength with _ | h
    · exact afterParse_complete_P_findNone Hf s _ _ hmode hP hfind
    · have hpf : parseSizeT h.2 = none := by simpa [clOf, hfind] using hcl
      exact afterParse_complete_P_castFail Hf s _ _ h hmode hP hfind hpf
  rw [hres]
  exact ⟨rfl, rfl, rfl, reach_handlerCalls_writing Hf rest _ (Or.inl rfl)⟩

/-- Witness for claim C4 at a fresh connection receiving a POST request with
no Content-Length header, then completing the 400 write. -/
theorem c4_bad_content_length_400_witness :
    (step Hf0 (connStart false) (Ev.readOk "POST /x HTTP/1.1\r\nHost: y\r\n\r\n".data)).response =
      stockReplyBadRequest ∧
    (step Hf0 (connStart false) (Ev.readOk "POST /x HTTP/1.1\r\nHost: y\r\n\r\n".data)).phase =
      Phase.writing ∧
    (step Hf0 (connStart false) (Ev.readOk "POST /x HTTP/1.1\r\nHost: y\r\n\r\n".data)).handlerCalls =
      (connStart false).handlerCalls ∧
    (reach Hf0 (step Hf0 (connStart false) (Ev.readOk "POST /x HTTP/1.1\r\nHost: y\r\n\r\n".data))
        [Ev.writeOk]).handlerCalls = (connStart false).handlerCalls :=
  c4_bad_content_length_400 Hf0 (connStart false) "POST /x HTTP/1.1\r\nHost: y\r\n\r\n".data
    [Ev.writeOk] rfl (by decide) (by decide) (by decide)

/-- Claim C5: when the parser reports a malformed request, the tribool false
case, the connection builds the stock 400 bad request response and moves to
the writing phase, the handler is invoked zero times on that connection now
and across every later completion event, and completing the write closes the
connection. -/
theorem c5_parse_failed_400 (Hf : Request → Response) (s : ConnState)
    (chunk : List Char) (rest : List Ev)
    (hph : s.phase = Phase.readingHeaders)
    (hmode : (feedBytes s.parserSt chunk).mode = PMode.failed) :
    (step Hf s (Ev.readOk chunk)).response = stockReplyBadRequest ∧
    (step Hf s (Ev.readOk chunk)).phase = Phase.writing ∧
    (step Hf s (Ev.readOk chunk)).handlerCalls = s.handlerCalls ∧
    (reach Hf (step Hf s (Ev.readOk chunk)) rest).handlerCalls = s.handlerCalls ∧
    (step Hf (step Hf s (Ev.readOk chunk)) Ev.writeOk).phase = Phase.closed := by
  have hres : step Hf s (Ev.readOk chunk) =
      { s with buffer := writeBuf s.buffer chunk,
               parserSt := feedBytes s.parserSt chunk,
               request := mergeReq s.request (feedBytes s.parserSt chunk),
               response := stockReplyBadRequest, phase := Phase.writing,
               issued := s.issued ++ [⟨OpKind.writeResp, true⟩] } := by
    rw [step_readingHeaders Hf s chunk hph]
    exact afterParse_failed Hf s _ _ hmode
  rw [hres]
  exact ⟨rfl, rfl, rfl, reach_handlerCalls_writing Hf rest _ (Or.inl rfl), rfl⟩

/-- Witness for claim C5 at a fresh connection receiving a request whose
first byte is not a token character. -/
theorem c5_parse_failed_400_witness :
    (step Hf0 (connStart false) (Ev.readOk ['@'])).response = stockReplyBadRequest ∧
    (step Hf0 (connStart false) (Ev.readOk ['@'])).phase = Phase.writing ∧
    (step Hf0 (connStart false) (Ev.readOk ['@'])).handlerCalls = (connStart false).handlerCalls ∧
    (reach Hf0 (step Hf0 (connStart false) (Ev.readOk ['@'])) [Ev.writeOk]).handlerCalls =
      (connStart false).handlerCalls ∧
    (step Hf0 (step Hf0 (connStart false) (Ev.readOk ['@'])) Ev.writeOk).phase = Phase.closed :=
  c5_parse_failed_400 Hf0 (connStart false) ['@'] [Ev.writeOk] rfl (by decide)

/-- Claim C10: the Content-Length resolution and body accumulation of
handle_read_headers are applied exactly to requests whose method begins with
the capital letter P. Any other completed request is dispatched to the
handler at once, with the response filled by the handler, no Content-Length
lookup and no body read: the connection goes straight to the writing phase
and the body stays empty. For a P method the resolved Content-Length decides:
None gives a 400 with no dispatch, zero dispatches at once with the body
untouched, and a positive value starts the body read without dispatching. -/
theorem c10_p_method_gate (Hf : Request → Response) (s : ConnState)
    (chunk : List Char)
    (hph : s.phase = Phase.readingHeaders)
    (hmode : (feedBytes s.parserSt chunk).mode = PMode.complete) :
    (headD (feedBytes s.parserSt chunk).methodAcc ≠ 'P' →
        (step Hf s (Ev.readOk chunk)).handlerCalls = s.handlerCalls + 1 ∧
        (step Hf s (Ev.readOk chunk)).phase = Phase.writing ∧
        (step Hf s (Ev.readOk chunk)).response =
          Hf (mergeReq s.request (feedBytes s.parserSt chunk)) ∧
        (step Hf s (Ev.readOk chunk)).request.body = s.request.body) ∧
    (headD (feedBytes s.parserSt chunk).methodAcc = 'P' →
        (clOf (feedBytes s.parserSt chunk) = none →
            (step Hf s (Ev.readOk chunk)).phase = Phase.writing ∧
            (step Hf s (Ev.readOk chunk)).handlerCalls = s.handlerCalls ∧
            (step Hf s (Ev.readOk chunk)).response = stockReplyBadRequest) ∧
        (clOf (feedBytes s.parserSt chunk) = some 0 →
            (step Hf s (Ev.readOk chunk)).phase = Phase.writing ∧
            (step Hf s (Ev.readOk chunk)).handlerCalls = s.handlerCalls + 1 ∧
            (step Hf s (Ev.readOk chunk)).request.body = s.request.body) ∧
        (∀ n, clOf (feedBytes s.parserSt chunk) = some n → n ≠ 0 →
            (step Hf s (Ev.readOk chunk)).phase = Phase.readingBody n ∧
            (step Hf s (Ev.readOk chunk)).handlerCalls = s.handlerCalls)) := by
  rw [step_readingHeaders Hf s chunk hph]
  constructor
  · intro hP
    rw [afterParse_complete_nonP Hf s _ _ hmode hP]
    exact ⟨rfl, rfl, rfl, rfl⟩
  · intro hP
    refine ⟨?_, ?_, ?_⟩
    · intro hcl
      rcases hfind : (feedBytes s.parserSt chunk).headersAcc.find? isContentLength with _ | h
      · rw [afterParse_complete_P_findNone Hf s _ _ hmode hP hfind]
        exact ⟨rfl, rfl, rfl⟩
      · have hpf : parseSizeT h.2 = none := by simpa [clOf, hfind] using hcl
        rw [afterParse_complete_P_castFail Hf s _ _ h hmode hP hfind hpf]
        exact ⟨rfl, rfl, rfl⟩
    · intro hcl
      rcases hfind : (feedBytes s.parserSt chunk).headersAcc.find? isContentLength with _ | h
      · simp [clOf, hfind] at hcl
      · have hpf : parseSizeT h.2 = some 0 := by simpa [clOf, hfind] using hcl
        rw [afterParse_complete_P_zero Hf s _ _ h hmode hP hfind hpf]
        exact ⟨rfl, rfl, rfl⟩
    · intro n hcl hn
      rcases hfind : (feedBytes s.parserSt chunk).headersAcc.find? isContentLength with _ | h
      · simp [clOf, hfind] at hcl
      · have hpf : parseSizeT h.2 = some n := by simpa [clOf, hfind] using hcl
        rw [afterParse_complete_P_pos Hf s _ _ h n hmode hP hfind hpf hn]
        exact ⟨rfl, rfl⟩

/-- Witness for claim C10 at a fresh connection receiving a GET request that
carries a Content-Length header: the handler is dispatched at once and no
body read is started, the header is never consulted. -/
theorem c10_p_method_gate_witness :
    (headD (feedBytes (connStart false).parserSt "GET / HTTP/1.1\r\nContent-Length: 5\r\n\r\n".data).methodAcc ≠ 'P' →
        (step Hf0 (connStart false) (Ev.readOk "GET / HTTP/1.1\r\nContent-Length: 5\r\n\r\n".data)).handlerCalls =
          (connStart false).handlerCalls + 1 ∧
        (step Hf0 (connStart false) (Ev.readOk "GET / HTTP/1.1\r\nContent-Length: 5\r\n\r\n".data)).phase =
          Phase.writing ∧
        (step Hf0 (connStart false) (Ev.readOk "GET / HTTP/1.1\r\nContent-Length: 5\r\n\r\n".data)).response =
          Hf0 (mergeReq (connStart false).request
            (feedBytes (connStart false).parserSt "GET / HTTP/1.1\r\nContent-Length: 5\r\n\r\n".data)) ∧
        (step Hf0 (connStart false) (Ev.readOk "GET / HTTP/1.1\r\nContent-Length: 5\r\n\r\n".data)).request.body =
          (connStart false).request.body) ∧
    (headD (feedBytes (connStart false).parserSt "GET / HTTP/1.1\r\nContent-Length: 5\r\n\r\n".data).methodAcc = 'P' →
        (clOf (feedBytes (connStart false).parserSt "GET / HTTP/1.1\r\nContent-Length: 5\r\n\r\n".data) = none →
            (step Hf0 (connStart false) (Ev.readOk "GET / HTTP/1.1\r\nContent-Length: 5\r\n\r\n".data)).phase =
              Phase.writing ∧
            (step Hf0 (connStart false) (Ev.readOk "GET / HTTP/1.1\r\nContent-Length: 5\r\n\r\n".data)).handlerCalls =
              (connStart false).handlerCalls ∧
            (step Hf0 (connStart false) (Ev.readOk "GET / HTTP/1.1\r\nContent-Length: 5\r\n\r\n".data)).response =
              stockReplyBadRequest) ∧
        (clOf (feedBytes (connStart false).parserSt "GET / HTTP/1.1\r\nContent-Length: 5\r\n\r\n".data) = some 0 →
            (step Hf0 (connStart false) (Ev.readOk "GET / HTTP/1.1\r\nContent-Length: 5\r\n\r\n".data)).phase =
              Phase.writing ∧
            (step Hf0 (connStart false) (Ev.readOk "GET / HTTP/1.1\r\nContent-Length: 5\r\n\r\n".data)).handlerCalls =
              (connStart false).handlerCalls + 1 ∧
            (step Hf0 (connStart false) (Ev.readOk "GET / HTTP/1.1\r\nContent-Length: 5\r\n\r\n".data)).request.body =
              (connStart false).request.body) ∧
        (∀ n, clOf (feedBytes (connStart false).parserSt "GET / HTTP/1.1\r\nContent-Length: 5\r\n\r\n".data) = some n →
            n ≠ 0 →
            (step Hf0 (connStart false) (Ev.readOk "GET / HTTP/1.1\r\nContent-Length: 5\r\n\r\n".data)).phase =
              Phase.readingBody n ∧
            (step Hf0 (connStart false) (Ev.readOk "GET / HTTP/1.1\r\nContent-Length: 5\r\n\r\n".data)).handlerCalls =
              (connStart false).handlerCalls)) :=
  c10_p_method_gate Hf0 (connStart false) "GET / HTTP/1.1\r\nContent-Length: 5\r\n\r\n".data
    rfl (by decide)

/-! ## Claim C2 as amended: exact body delivery dispatches exactly once -/

/-- The reads of a body phase that the dispatch condition of
handle_read_body_contents accepts: every read delivers at most the bytes
still needed and the final read makes the running remainder exactly zero. -/
def bodyFeedOk : Nat → List (List Char) → Bool
  | _, [] => false
  | r, c :: cs =>
      (c.length == r && cs.isEmpty) ||
      (decide (c.length < r) && bodyFeedOk (r - c.length) cs)

lemma writeBuf_length (buffer chunk : List Char) (h : buffer.length = BUFSZ) :
    (writeBuf buffer chunk).length = BUFSZ := by
  simp [writeBuf, h]
  omega

lemma sub64_exact (r n : Nat) (h : n ≤ r) (h64 : r < 2 ^ 64) :
    sub64 r n = r - n := by
  unfold sub64
  rw [Nat.mod_eq_of_lt (lt_of_le_of_lt h h64)]
  have h2 : r + 2 ^ 64 - n = (r - n) + 2 ^ 64 := by omega
  rw [h2, Nat.add_mod_right]
  exact Nat.mod_eq_of_lt (by omega)

lemma parseSizeT_lt (cs : List Char) (n : Nat) (h : parseSizeT cs = some n) :
    n < 2 ^ 64 := by
  simp only [parseSizeT] at h
  split at h
  · split at h
    · cases h
      assumption
    · cases h
  · cases h

lemma bodyFeedOk_le (B : Nat) :
    ∀ (bs : List (List Char)) (r : Nat), bodyFeedOk r bs = true →
      (∀ c ∈ bs, c.length ≤ B) → r ≤ bs.length * B := by
  intro bs
  induction bs with
  | nil => intro r h _; simp [bodyFeedOk] at h
  | cons c cs ih =>
      intro r h hcap
      simp only [bodyFeedOk, Bool.or_eq_true, Bool.and_eq_true, beq_iff_eq,
        List.isEmpty_iff, decide_eq_true_eq] at h
      have hc : c.length ≤ B := hcap c (List.mem_cons_self c cs)
      rw [List.length_cons, Nat.succ_mul]
      rcases h with ⟨h1, h2⟩ | ⟨h1, h2⟩
      · subst h2
        simp only [List.length_nil, Nat.zero_mul, Nat.zero_add]
        omega
      · have h3 := ih (r - c.length) h2 (fun d hd => hcap d (List.mem_cons_of_mem c hd))
        omega

lemma handleReadBody_exact (Hf : Request → Response) (s : ConnState) (r : Nat)
    (c : List Char) (hc : sub64 r c.length = 0) :
    handleReadBody Hf s r c =
      { s with buffer := writeBuf s.buffer c,
               request := { s.request with body := s.request.body ++ writeBuf s.buffer c },
               response := Hf { s.request with body := s.request.body ++ writeBuf s.buffer c },
               handlerCalls := s.handlerCalls + 1, phase := Phase.writing,
               issued := s.issued ++ [⟨OpKind.writeResp, true⟩] } := by
  simp [handleReadBody, hc]

lemma handleReadBody_more (Hf : Request → Response) (s : ConnState) (r : Nat)
    (c : List Char) (hc : sub64 r c.length ≠ 0) :
    handleReadBody Hf s r c =
      { s with buffer := writeBuf s.buffer c,
               request := { s.request with body := s.request.body ++ writeBuf s.buffer c },
               phase := Phase.readingBody (sub64 r c.length),
               issued := s.issued ++ [⟨OpKind.readBody, true⟩] } := by
  simp [handleReadBody, hc]

lemma step_readingBody (Hf : Request → Response) (s : ConnState) (r : Nat)
    (c : List Char) (hph : s.phase = Phase.readingBody r) :
    step Hf s (Ev.readOk c) = handleReadBody Hf s r c := by
  unfold step
  rw [hph]

lemma step_writeOk (Hf : Request → Response) (s : ConnState)
    (h : s.phase = Phase.writing) :
    step Hf s Ev.writeOk =
      { s with phase := Phase.closed, shutdownCalls := s.shutdownCalls + 1 } := by
  unfold step
  rw [h]

lemma reach_cons (Hf : Request → Response) (s : ConnState) (e : Ev) (evs : List Ev) :
    reach Hf s (e :: evs) = reach Hf (step Hf s e) evs := rfl

lemma reach_append (Hf : Request → Response) (s : ConnState) (a b : List Ev) :
    reach Hf s (a ++ b) = reach Hf (reach Hf s a) b := by
  simp [reach, List.foldl_append]

lemma body_run (Hf : Request → Response) :
    ∀ (bs : List (List Char)) (s : ConnState) (r : Nat),
      s.phase = Phase.readingBody r → r < 2 ^ 64 →
      bodyFeedOk r bs = true → s.buffer.length = BUFSZ →
      (reach Hf s (bs.map Ev.readOk)).handlerCalls = s.handlerCalls + 1 ∧
      (reach Hf s (bs.map Ev.readOk)).phase = Phase.writing ∧
      (reach Hf s (bs.map Ev.readOk)).request.body.length =
        s.request.body.length + bs.length * BUFSZ ∧
      (reach Hf s (bs.map Ev.readOk)).shutdownCalls = s.shutdownCalls := by
  intro bs
  induction bs with
  | nil => intro s r _ _ hfeed _; simp [bodyFeedOk] at hfeed
  | cons c cs ih =>
      intro s r hph h64 hfeed hbuf
      simp only [bodyFeedOk, Bool.or_eq_true, Bool.and_eq_true, beq_iff_eq,
        List.isEmpty_iff, decide_eq_true_eq] at hfeed
      rw [List.map_cons, reach_cons, step_readingBody Hf s r c hph]
      rcases hfeed with ⟨h1, h2⟩ | ⟨h1, h2⟩
      · subst h2
        have hdiff : sub64 r c.length = 0 := by
          rw [h1, sub64_exact r r (le_refl r) h64]
          omega
        rw [handleReadBody_exact Hf s r c hdiff]
        refine ⟨rfl, rfl, ?_, rfl⟩
        simp [reach, writeBuf_length s.buffer c hbuf]
      · have hdiff : sub64 r c.length = r - c.length :=
          sub64_exact r c.length (le_of_lt h1) h64
        have hne : sub64 r c.length ≠ 0 := by omega
        rw [handleReadBody_more Hf s r c hne]
        have hrec := ih
          { s with buffer := writeBuf s.buffer c,
                   request := { s.request with body := s.request.body ++ writeBuf s.buffer c },
                   phase := Phase.readingBody (sub64 r c.length),
                   issued := s.issued ++ [⟨OpKind.readBody, true⟩] }
          (sub64 r c.length) rfl (by omega) (by rw [hdiff]; exact h2)
          (writeBuf_length s.buffer c hbuf)
        refine ⟨hrec.1, hrec.2.1, ?_, hrec.2.2.2⟩
        rw [hrec.2.2.1]
        simp only [List.length_append, writeBuf_length s.buffer c hbuf,
          List.length_cons, Nat.succ_mul]
        omega

/-- Claim C2 as amended: for a request whose resolved Content-Length is N
with N positive, provided every body read completes with at most the bytes
still needed and the reads add up to exactly N, the handler is invoked
exactly once, only after at least N bytes have been accumulated into the
body buffer, and the connection then writes the response, shuts down once
and reaches the closed phase. The proviso is forced by the code: dispatch
happens only when the size_t remainder hits exactly zero, and an
over-delivering read wraps the remainder around instead. -/
theorem c2_exact_body_delivery (Hf : Request → Response) (s : ConnState)
    (hc : List Char) (bs : List (List Char)) (N : Nat)
    (hph : s.phase = Phase.readingHeaders)
    (hbuf : s.buffer.length = BUFSZ)
    (hmode : (feedBytes s.parserSt hc).mode = PMode.complete)
    (hP : headD (feedBytes s.parserSt hc).methodAcc = 'P')
    (hcl : clOf (feedBytes s.parserSt hc) = some N) (hN : N ≠ 0)
    (hfeed : bodyFeedOk N bs = true)
    (hcap : ∀ c ∈ bs, c.length ≤ BUFSZ) :
    (reach Hf s (Ev.readOk hc :: (bs.map Ev.readOk ++ [Ev.writeOk]))).handlerCalls =
      s.handlerCalls + 1 ∧
    (reach Hf s (Ev.readOk hc :: (bs.map Ev.readOk ++ [Ev.writeOk]))).phase =
      Phase.closed ∧
    N ≤ (reach Hf s (Ev.readOk hc :: (bs.map Ev.readOk ++ [Ev.writeOk]))).request.body.length ∧
    (reach Hf s (Ev.readOk hc :: (bs.map Ev.readOk ++ [Ev.writeOk]))).shutdownCalls =
      s.shutdownCalls + 1 := by
  obtain ⟨h, hfind, hpf⟩ :
      ∃ h, (feedBytes s.parserSt hc).headersAcc.find? isContentLength = some h ∧
        parseSizeT h.2 = some N := by
    rcases hfind : (feedBytes s.parserSt hc).headersAcc.find? isContentLength with _ | h
    · simp [clOf, hfind] at hcl
    · exact ⟨h, rfl, by simpa [clOf, hfind] using hcl⟩
  have hN64 : N < 2 ^ 64 := parseSizeT_lt h.2 N hpf
  have hs1 : step Hf s (Ev.readOk hc) =
      { s with buffer := writeBuf s.buffer hc,
               parserSt := feedBytes s.parserSt hc,
               request := mergeReq s.request (feedBytes s.parserSt hc),
               phase := Phase.readingBody N,
               issued := s.issued ++ [⟨OpKind.readBody, true⟩] } := by
    rw [step_readingHeaders Hf s hc hph]
    exact afterParse_complete_P_pos Hf s _ _ h N hmode hP hfind hpf hN
  rw [reach_cons, hs1, reach_append]
  have hrun := body_run Hf bs
    { s with buffer := writeBuf s.buffer hc,
             parserSt := feedBytes s.parserSt hc,
             request := mergeReq s.request (feedBytes s.parserSt hc),
             phase := Phase.readingBody N,
             issued := s.issued ++ [⟨OpKind.readBody, true⟩] }
    N rfl hN64 hfeed (writeBuf_length s.buffer hc hbuf)
  have hle := bodyFeedOk_le BUFSZ bs N hfeed hcap
  generalize hS2 : reach Hf
    { s with buffer := writeBuf s.buffer hc,
             parserSt := feedBytes s.parserSt hc,
             request := mergeReq s.request (feedBytes s.parserSt hc),
             phase := Phase.readingBody N,
             issued := s.issued ++ [⟨OpKind.readBody, true⟩] }
    (bs.map Ev.readOk) = s2 at hrun ⊢
  rw [show reach Hf s2 [Ev.writeOk] = step Hf s2 Ev.writeOk from rfl,
    step_writeOk Hf s2 hrun.2.1]
  have hb : s2.request.body.length = s.request.body.length + bs.length * BUFSZ :=
    hrun.2.2.1
  refine ⟨hrun.1, rfl, ?_, ?_⟩
  · show N ≤ s2.request.body.length
    omega
  · show s2.shutdownCalls + 1 = s.shutdownCalls + 1
    rw [hrun.2.2.2]

/-- Witness for claim C2 as amended: the five byte body arrives in one read
of exactly five bytes; the handler runs once, at least five body bytes are
accumulated, and the connection closes after one shutdown. -/
theorem c2_exact_body_delivery_witness :
    (reach Hf0 (connStart false)
        (Ev.readOk post5Req.data :: ([("hello".data)].map Ev.readOk ++ [Ev.writeOk]))).handlerCalls =
      (connStart false).handlerCalls + 1 ∧
    (reach Hf0 (connStart false)
        (Ev.readOk post5Req.data :: ([("hello".data)].map Ev.readOk ++ [Ev.writeOk]))).phase =
      Phase.closed ∧
    5 ≤ (reach Hf0 (connStart false)
        (Ev.readOk post5Req.data :: ([("hello".data)].map Ev.readOk ++ [Ev.writeOk]))).request.body.length ∧
    (reach Hf0 (connStart false)
        (Ev.readOk post5Req.data :: ([("hello".data)].map Ev.readOk ++ [Ev.writeOk]))).shutdownCalls =
      (connStart false).shutdownCalls + 1 :=
  c2_exact_body_delivery Hf0 (connStart false) post5Req.data ["hello".data] 5
    rfl (by decide) (by decide) (by decide) (by decide) (by decide) (by decide)
    (by decide)

/-- Claim C8, counterexample: a socket error on the very first header read
abandons the connection, but the handler logging hook is never called, now or
later: logCalls stays 0 after the error and the closed connection never acts
again. The claim says the read error is reported to the logging hook; the
code at connection.hpp lines 204 to 206 and 239 to 241 only carries the
comment TODO Log the error and does nothing. -/
theorem c8_counterexample_error_not_logged :
    (step Hf0 (connStart false) Ev.readErr).logCalls = 0 ∧
    (step Hf0 (connStart false) Ev.readErr).phase = Phase.closed ∧
    reach Hf0 (step Hf0 (connStart false) Ev.readErr) [Ev.readOk ['a'], Ev.writeOk] =
      step Hf0 (connStart false) Ev.readErr := by
  refine ⟨by decide, by decide, ?_⟩
  exact reach_closed Hf0 [Ev.readOk ['a'], Ev.writeOk] _ (by decide)

/-- Claim C8 as amended: a socket level transport error on a header read or a
body read abandons the connection immediately, with no retry and no further
operation of any kind, but the error is not reported to the handler logging
hook: the log counter is unchanged. Only the set_option failure inside start
is ever logged. -/
theorem c8_read_error_abandoned (Hf : Request → Response) (s : ConnState)
    (evs : List Ev)
    (h : s.phase = Phase.readingHeaders ∨ ∃ r, s.phase = Phase.readingBody r) :
    (step Hf s Ev.readErr).phase = Phase.closed ∧
    (step Hf s Ev.readErr).logCalls = s.logCalls ∧
    (step Hf s Ev.readErr).issued = s.issued ∧
    reach Hf (step Hf s Ev.readErr) evs = step Hf s Ev.readErr := by
  have hstep : step Hf s Ev.readErr = { s with phase := Phase.closed } := by
    rcases h with h | ⟨r, h⟩ <;> (unfold step; rw [h])
  rw [hstep]
  exact ⟨rfl, rfl, rfl, reach_closed Hf evs _ rfl⟩

/-- Witness for claim C8 as amended, at the fresh connection with a pending
header read. -/
theorem c8_read_error_abandoned_witness :
    (step Hf0 (connStart false) Ev.readErr).phase = Phase.closed ∧
    (step Hf0 (connStart false) Ev.readErr).logCalls = (connStart false).logCalls ∧
    (step Hf0 (connStart false) Ev.readErr).issued = (connStart false).issued ∧
    reach Hf0 (step Hf0 (connStart false) Ev.readErr) [Ev.writeOk] =
      step Hf0 (connStart false) Ev.readErr :=
  c8_read_error_abandoned Hf0 (connStart false) [Ev.writeOk] (Or.inl rfl)

/-! ## Claim C6: every callback goes through the per connection strand -/

/-- Two half open execution intervals that do not overlap in time. -/
def overlapFree (a b : Nat × Nat) : Prop :=
  a.2 ≤ b.1 ∨ b.2 ≤ a.1

instance (a b : Nat × Nat) : Decidable (overlapFree a b) :=
  inferInstanceAs (Decidable (_ ∨ _))

lemma afterParse_issued (Hf : Request → Response) (s : ConnState)
    (buf2 : List Char) (p2 : PState) :
    ∀ op ∈ (afterParse Hf s buf2 p2).issued, op ∈ s.issued ∨ op.wrapped = true := by
  intro op hop
  simp only [afterParse] at hop
  repeat' split at hop
  all_goals
    simp only [List.mem_append, List.mem_cons, List.not_mem_nil, or_false] at hop
  all_goals rcases hop with hop | rfl
  all_goals first | exact Or.inl hop | exact Or.inr rfl

lemma handleReadBody_issued (Hf : Request → Response) (s : ConnState) (r : Nat)
    (c : List Char) :
    ∀ op ∈ (handleReadBody Hf s r c).issued, op ∈ s.issued ∨ op.wrapped = true := by
  intro op hop
  simp only [handleReadBody] at hop
  repeat' split at hop
  all_goals
    simp only [List.mem_append, List.mem_cons, List.not_mem_nil, or_false] at hop
  all_goals rcases hop with hop | rfl
  all_goals first | exact Or.inl hop | exact Or.inr rfl

lemma step_issued (Hf : Request → Response) (s : ConnState) (e : Ev) :
    ∀ op ∈ (step Hf s e).issued, op ∈ s.issued ∨ op.wrapped = true := by
  intro op hop
  unfold step at hop
  repeat' split at hop
  all_goals
    first
      | exact afterParse_issued Hf s _ _ op hop
      | exact handleReadBody_issued Hf s _ _ op hop
      | exact Or.inl hop

lemma reach_issued_wrapped (Hf : Request → Response) :
    ∀ (evs : List Ev) (s : ConnState),
      (∀ op ∈ s.issued, op.wrapped = true) →
      ∀ op ∈ (reach Hf s evs).issued, op.wrapped = true := by
  intro evs
  induction evs with
  | nil => intro s h; exact h
  | cons e es ih =>
      intro s h
      refine ih (step Hf s e) ?_
      intro op hop
      rcases step_issued Hf s e op hop with h1 | h1
      · exact h op h1
      · exact h1

/-- Claim C6: every asynchronous operation a connection ever registers, the
initial header read of start, every further header read, every body read and
every response write, has its completion callback wrapped by the per
connection strand wrapper_. Consequently, under the defining guarantee of
the strand, that callbacks it wraps for this connection never run at
overlapping times, no two callbacks of the connection execute
simultaneously, whatever schedule the shared worker pool picks. -/
theorem c6_strand_serialization (optErr : Bool) (Hf : Request → Response)
    (evs : List Ev) (sched : Nat → Nat × Nat)
    (hstrand : ∀ i, (hi : i < (reach Hf (connStart optErr) evs).issued.length) →
        ∀ j, (hj : j < (reach Hf (connStart optErr) evs).issued.length) →
        i ≠ j →
        ((reach Hf (connStart optErr) evs).issued.get ⟨i, hi⟩).wrapped = true →
        ((reach Hf (connStart optErr) evs).issued.get ⟨j, hj⟩).wrapped = true →
        overlapFree (sched i) (sched j)) :
    (∀ op ∈ (reach Hf (connStart optErr) evs).issued, op.wrapped = true) ∧
    (∀ i, (hi : i < (reach Hf (connStart optErr) evs).issued.length) →
        ∀ j, (hj : j < (reach Hf (connStart optErr) evs).issued.length) →
        i ≠ j → overlapFree (sched i) (sched j)) := by
  have hw : ∀ op ∈ (reach Hf (connStart optErr) evs).issued, op.wrapped = true := by
    refine reach_issued_wrapped Hf evs (connStart optErr) ?_
    intro op hop
    simp only [connStart, List.mem_cons, List.not_mem_nil, or_false] at hop
    rw [hop]
  refine ⟨hw, ?_⟩
  intro i hi j hj hne
  exact hstrand i hi j hj hne (hw _ (List.get_mem _ _ _)) (hw _ (List.get_mem _ _ _))

/-- Witness for claim C6: a GET request served to completion, with a
schedule that runs the two registered callbacks back to back. -/
theorem c6_strand_serialization_witness :
    (∀ op ∈ (reach Hf0 (connStart false)
        [Ev.readOk "GET / HTTP/1.1\r\n\r\n".data, Ev.writeOk]).issued,
      op.wrapped = true) ∧
    (∀ i, (hi : i < (reach Hf0 (connStart false)
          [Ev.readOk "GET / HTTP/1.1\r\n\r\n".data, Ev.writeOk]).issued.length) →
        ∀ j, (hj : j < (reach Hf0 (connStart false)
          [Ev.readOk "GET / HTTP/1.1\r\n\r\n".data, Ev.writeOk]).issued.length) →
        i ≠ j → overlapFree ((fun i => (i, i + 1)) i) ((fun i => (i, i + 1)) j)) :=
  c6_strand_serialization false Hf0
    [Ev.readOk "GET / HTTP/1.1\r\n\r\n".data, Ev.writeOk]
    (fun i => (i, i + 1)) (by decide)

/-! ## Claim C9: the client connection manager, modelled from the spec -/

/-- Modelled from the spec: the state of a connection_manager
implementation. The operations of connection_manager.hpp are pure virtual
with no implementation under src, so the idle pool keyed by destination, the
resolved address cache and the checked out set follow spec section 4.3.
A connection instance is identified by the Nat id it was created with; ids
are allocated monotonically from nextId, so a freshly established connection
is never an earlier instance. -/
structure CMState where
  pool : List (Nat × Nat)
  out : List Nat
  cache : List (Nat × Nat)
  nextId : Nat
deriving DecidableEq

/-- Modelled from the spec: the operations a client may direct at the
manager: get_connection with a destination key, returning a checked out
connection to the idle pool, a lazy address resolution filling the cache,
clear_resolved_cache, and reset. -/
inductive CMOp where
  | get (key : Nat)
  | put (key : Nat) (cid : Nat)
  | resolve (host addr : Nat)
  | clearCache
  | reset
deriving DecidableEq

/-- Modelled from the spec: one manager operation. get_connection returns an
idle pooled connection matching the key if one exists, else establishes a
fresh one; a connection can be returned to the pool only while it is checked
out; reset closes and discards every pooled connection and clears the
address cache, touching neither checked out connections nor the id counter. -/
def cmStep (s : CMState) (op : CMOp) : CMState × Option Nat :=
  match op with
  | CMOp.get key =>
      match s.pool.find? (fun kc => kc.1 == key) with
      | some kc =>
          ({ s with pool := s.pool.erase kc, out := kc.2 :: s.out }, some kc.2)
      | none =>
          ({ s with out := s.nextId :: s.out, nextId := s.nextId + 1 }, some s.nextId)
  | CMOp.put key cid =>
      if cid ∈ s.out then
        ({ s with out := s.out.erase cid, pool := (key, cid) :: s.pool }, none)
      else (s, none)
  | CMOp.resolve host addr => ({ s with cache := (host, addr) :: s.cache }, none)
  | CMOp.clearCache => ({ s with cache := [] }, none)
  | CMOp.reset => ({ s with pool := [], cache := [] }, none)

/-- Running a sequence of manager operations, collecting every connection id
that a get_connection call hands out. -/
def cmRun (s : CMState) : List CMOp → CMState × List Nat
  | [] => (s, [])
  | op :: ops =>
      ((cmRun (cmStep s op).1 ops).1,
        (cmStep s op).2.toList ++ (cmRun (cmStep s op).1 ops).2)

/-- The reset operation by itself. -/
def cmReset (s : CMState) : CMState := (cmStep s CMOp.reset).1

/-- Well formed manager state: every pooled or checked out id was allocated
below the counter, and no instance is simultaneously idle and checked out. -/
def cmWF (s : CMState) : Prop :=
  (∀ kc ∈ s.pool, kc.2 < s.nextId) ∧ (∀ cid ∈ s.out, cid < s.nextId) ∧
  (∀ kc ∈ s.pool, kc.2 ∉ s.out)

lemma cmRun_avoid (P : List Nat) :
    ∀ (ops : List CMOp) (t : CMState),
      (∀ kc ∈ t.pool, kc.2 ∉ P) → (∀ cid ∈ t.out, cid ∉ P) →
      (∀ q ∈ P, q < t.nextId) →
      ∀ cid ∈ (cmRun t ops).2, cid ∉ P := by
  intro ops
  induction ops with
  | nil => intro t _ _ _ cid hcid; simp [cmRun] at hcid
  | cons op ops ih =>
      intro t hpool hout hlow cid hcid
      rw [cmRun] at hcid
      simp only [List.mem_append] at hcid
      cases op with
      | get key =>
          rcases hfind : t.pool.find? (fun kc => kc.1 == key) with _ | kc
          · simp only [cmStep, hfind] at hcid
            have hfresh : t.nextId ∉ P := fun hin =>
              absurd (hlow _ hin) (lt_irrefl _)
            rcases hcid with hcid | hcid
            · simp only [Option.toList_some, List.mem_cons, List.not_mem_nil,
                or_false] at hcid
              subst hcid
              exact hfresh
            · have hout2 : ∀ c ∈ (t.nextId :: t.out), c ∉ P := by
                intro c hc
                rcases List.mem_cons.mp hc with hc | hc
                · subst hc
                  exact hfresh
                · exact hout c hc
              have hlow2 : ∀ q ∈ P, q < t.nextId + 1 := fun q hq =>
                Nat.lt_succ_of_lt (hlow q hq)
              exact ih { t with out := t.nextId :: t.out, nextId := t.nextId + 1 }
                hpool hout2 hlow2 cid hcid
          · have hmem : kc ∈ t.pool := List.mem_of_find?_eq_some hfind
            have hkc : kc.2 ∉ P := hpool kc hmem
            simp only [cmStep, hfind] at hcid
            rcases hcid with hcid | hcid
            · simp only [Option.toList_some, List.mem_cons, List.not_mem_nil,
                or_false] at hcid
              subst hcid
              exact hkc
            · have hpool2 : ∀ kc2 ∈ t.pool.erase kc, kc2.2 ∉ P := fun kc2 h2 =>
                hpool kc2 (List.mem_of_mem_erase h2)
              have hout2 : ∀ c ∈ (kc.2 :: t.out), c ∉ P := by
                intro c hc
                rcases List.mem_cons.mp hc with hc | hc
                · subst hc
                  exact hkc
                · exact hout c hc
              exact ih { t with pool := t.pool.erase kc, out := kc.2 :: t.out }
                hpool2 hout2 hlow cid hcid
      | put key cid0 =>
          by_cases hmem : cid0 ∈ t.out
          · simp only [cmStep, if_pos hmem] at hcid
            rcases hcid with hcid | hcid
            · simp at hcid
            · have hpool2 : ∀ kc2 ∈ ((key, cid0) :: t.pool), kc2.2 ∉ P := by
                intro kc2 h2
                rcases List.mem_cons.mp h2 with h2 | h2
                · subst h2
                  exact hout cid0 hmem
                · exact hpool kc2 h2
              have hout2 : ∀ c ∈ t.out.erase cid0, c ∉ P := fun c hc =>
                hout c (List.mem_of_mem_erase hc)
              exact ih { t with out := t.out.erase cid0, pool := (key, cid0) :: t.pool }
                hpool2 hout2 hlow cid hcid
          · simp only [cmStep, if_neg hmem] at hcid
            rcases hcid with hcid | hcid
            · simp at hcid
            · exact ih t hpool hout hlow cid hcid
      | resolve host addr =>
          simp only [cmStep] at hcid
          rcases hcid with hcid | hcid
          · simp at hcid
          · exact ih { t with cache := (host, addr) :: t.cache }
              hpool hout hlow cid hcid
      | clearCache =>
          simp only [cmStep] at hcid
          rcases hcid with hcid | hcid
          · simp at hcid
          · exact ih { t with cache := [] } hpool hout hlow cid hcid
      | reset =>
          simp only [cmStep] at hcid
          rcases hcid with hcid | hcid
          · simp at hcid
          · have hpool2 : ∀ kc2 ∈ ([] : List (Nat × Nat)), kc2.2 ∉ P := by
              intro kc2 h2
              simp at h2
            exact ih { t with pool := [], cache := [] } hpool2 hout hlow cid hcid

/-- Claim C9: from any well formed manager state, reset clears the resolved
address cache, and whatever sequence of get_connection, return, resolve,
clear and further reset operations follows, no get_connection call ever
hands out a connection instance that sat in the idle pool when the reset was
performed. -/
theorem c9_reset_pool (s : CMState) (ops : List CMOp) (hwf : cmWF s) :
    (cmReset s).cache = [] ∧
    ∀ cid ∈ (cmRun (cmReset s) ops).2, ∀ kc ∈ s.pool, cid ≠ kc.2 := by
  refine ⟨rfl, ?_⟩
  have havoid := cmRun_avoid (s.pool.map Prod.snd) ops (cmReset s)
    (by intro kc h; simp [cmReset, cmStep] at h)
    (by
      intro c hc hmap
      rcases List.mem_map.mp hmap with ⟨kc, hkc, hkc2⟩
      exact hwf.2.2 kc hkc (hkc2 ▸ hc))
    (by
      intro q hq
      rcases List.mem_map.mp hq with ⟨kc, hkc, hkc2⟩
      exact hkc2 ▸ hwf.1 kc hkc)
  intro cid hcid kc hkc heq
  exact havoid cid hcid (List.mem_map.mpr ⟨kc, hkc, heq.symm⟩)

/-- A concrete manager holding one idle connection, instance id 0, for key
1, one cached address, and counter 1. -/
def cmEx : CMState := ⟨[(1, 0)], [], [(7, 9)], 1⟩

/-- Witness for claim C9: after reset, a get_connection for the same key
establishes the fresh instance 1, never the previously pooled instance 0,
and the address cache is empty. -/
theorem c9_reset_pool_witness :
    (cmReset cmEx).cache = [] ∧
    ∀ cid ∈ (cmRun (cmReset cmEx) [CMOp.get 1]).2, ∀ kc ∈ cmEx.pool, cid ≠ kc.2 :=
  c9_reset_pool cmEx [CMOp.get 1] ⟨by decide, by decide, by decide⟩

end CppNetlib
